import Mathlib

/-!
Shallow embedding of the resource-reconciliation plugins of the
ansible.platform collection, centred on
plugins/module_utils/aap_organization.py (the identifier resolver
resolve_id, the relation reconciler post_ensure, and the HTTP helper
called open in the source) and on
plugins/modules/role_team_assignment.py (assign_team_role).

HTTP traffic is embedded by passing the data a request would return as
explicit arguments: a GET on a lookup endpoint becomes the list of
result items that query would yield, and the PATCH/POST/DELETE calls a
function would issue are collected in its result instead of being
performed.  Python dynamic values that matter here (None, int, str) are
embedded as the inductive type Ref; Python truthiness and str() are
embedded where the source relies on them.
-/

namespace AAPPlatform

/-- A module-parameter reference value: Python None, an int, or a str. -/
inductive Ref
  | pyNone
  | pyInt (n : Int)
  | pyStr (s : String)
deriving DecidableEq, Repr

/-- Embedding of the Python str.isdigit test on a list of characters:
true iff the string is non-empty and every character is a digit. -/
def pyIsDigitL (l : List Char) : Bool :=
  !l.isEmpty && l.all Char.isDigit

/-- Python str.isdigit on a string. -/
def pyIsDigit (s : String) : Bool :=
  pyIsDigitL s.data

/-- Decimal value of a digit string, as computed by Python int(). -/
def digitsValL (l : List Char) : Nat :=
  l.foldl (fun a c => 10 * a + (c.toNat - 48)) 0

/-- Decimal value of a digit string. -/
def digitsVal (s : String) : Nat :=
  digitsValL s.data

/-- Embedding of Python value.rstrip with the separator character:
drop trailing slashes. -/
def rstripSlash (l : List Char) : List Char :=
  (l.reverse.dropWhile (fun c => c == '/')).reverse

/-- Embedding of Python str.split on the slash character: empty input
yields one empty segment, and adjacent separators yield empty segments,
exactly as in Python. -/
def splitSlash : List Char → List (List Char)
  | [] => [[]]
  | c :: rest =>
    if c == '/' then [] :: splitSlash rest
    else
      match splitSlash rest with
      | [] => [[c]]
      | h :: t => (c :: h) :: t

/-- The non-empty path segments of a reference string, as computed at
line 156 of aap_organization.py: split the slash-stripped value on
slashes and keep the non-empty parts. -/
def pathSegments (s : String) : List (List Char) :=
  (splitSlash (rstripSlash s.data)).filter (fun p => !p.isEmpty)

/-- One item of a lookup-endpoint result list.  The id and name fields
are optional because the Python code reads them with dict.get (name)
and dict indexing (id), which differ when the key is absent. -/
structure LookupItem where
  id : Option Int
  name : Option String
deriving DecidableEq, Repr

/-- Python str() applied to the result of item.get(name_field):
a missing key formats as the string None. -/
def pyStrOfOptName : Option String → String
  | none => "None"
  | some s => s

/-- The name-lookup branch of resolve_id (lines 160-170 of
aap_organization.py): scan the result items for the first whose name
formats equal to the reference (returning its id, where a missing id
key would raise, embedded as an error); otherwise a single-element
result list with an id key yields that id; otherwise null. -/
def lookup_branch (items : List LookupItem) (s : String) : Except String (Option Int) :=
  match items.find? (fun it => pyStrOfOptName it.name == s) with
  | some it =>
    match it.id with
    | some i => .ok (some i)
    | none => .error "KeyError: id"
  | none =>
    match items with
    | [it] =>
      match it.id with
      | some i => .ok (some i)
      | none => .ok none
    | _ => .ok none

/-- Embedding of AAPOrganization.resolve_id (lines 144-170).  The
items argument stands for the result list the GET on the filtered
endpoint would return.  The second component records whether that
network read was performed.  Fallible evaluation (the possible KeyError
in the lookup branch) is an Except error. -/
def resolve_id (items : List LookupItem) (value : Ref) :
    Except String (Option Int) × Bool :=
  match value with
  | .pyNone => (.ok none, false)
  | .pyInt n => (.ok (some n), false)
  | .pyStr s =>
    if pyIsDigit s then (.ok (some ((digitsVal s : Nat) : Int)), false)
    else if '/' ∈ s.data then
      match (pathSegments s).getLast? with
      | some last =>
        if pyIsDigitL last then (.ok (some ((digitsValL last : Nat) : Int)), false)
        else (lookup_branch items s, true)
      | none => (lookup_branch items s, true)
    else (lookup_branch items s, true)

/-- Python f-string formatting of a reference value. -/
def refFmt : Ref → String
  | .pyNone => "None"
  | .pyInt n => toString n
  | .pyStr s => s

/-- Warning recorded when default_environment cannot be resolved
(lines 61-64 of aap_organization.py). -/
def eeWarnMsg (de : Ref) : String :=
  "Organization default_environment " ++ refFmt de ++
    " could not be resolved to an Execution Environment id; skipping EE update."

/-- Warning recorded when a galaxy credential cannot be resolved
(lines 86-88 of aap_organization.py). -/
def gcWarnMsg (cred : Ref) : String :=
  "Galaxy credential " ++ refFmt cred ++ " could not be resolved; skipping."

/-- Python set.add on a set embedded as a duplicate-free list. -/
def pyInsert (acc : List Int) (n : Int) : List Int :=
  if n ∈ acc then acc else acc ++ [n]

/-- Python set comprehension over a list of ids. -/
def pySetOf (l : List Int) : List Int :=
  l.foldl pyInsert []

/-- The remote data post_ensure reads over HTTP: the result lists of
the two filtered lookup GETs (as functions of the queried reference),
the default_environment field of the organization detail GET, and the
ids in the galaxy_credentials sub-collection GET. -/
structure AAPEnv where
  eeLookup : Ref → List LookupItem
  credLookup : Ref → List LookupItem
  orgDefaultEnvironment : Option Int
  galaxyCredentialIds : List Int

/-- The module parameters post_ensure reads. -/
structure OrgParams where
  state : String
  default_environment : Ref
  galaxy_credentials : Option (List Ref)

/-- Outcome of the default_environment section of post_ensure:
the changed contribution, recorded warnings, and the PATCH issued
(the new default_environment id), if any. -/
structure EEOutcome where
  changed : Bool
  warnings : List String
  eePatch : Option Int
deriving DecidableEq, Repr

/-- Outcome of the galaxy_credentials section of post_ensure: the
changed contribution, recorded warnings, and the ids POSTed to and
DELETEd from the galaxy_credentials sub-collection, in call order. -/
structure GCOutcome where
  changed : Bool
  warnings : List String
  gcAdds : List Int
  gcDels : List Int
deriving DecidableEq, Repr

/-- Overall outcome of post_ensure: the returned changed flag, the
warnings recorded, and the mutating HTTP calls issued. -/
structure PostEnsureResult where
  changed : Bool
  warnings : List String
  eePatch : Option Int
  gcAdds : List Int
  gcDels : List Int
deriving DecidableEq, Repr

/-- The default_environment section of post_ensure (lines 52-74 of
aap_organization.py): resolve the desired environment; on failure warn
and skip; otherwise compare with the current field and PATCH (outside
check mode) when they differ. -/
def ee_step (env : AAPEnv) (desired_ee : Ref) (check_mode : Bool) :
    Except String EEOutcome :=
  if desired_ee = .pyNone then .ok ⟨false, [], none⟩
  else
    match (resolve_id (env.eeLookup desired_ee) desired_ee).1 with
    | .error e => .error e
    | .ok none => .ok ⟨false, [eeWarnMsg desired_ee], none⟩
    | .ok (some eeId) =>
      if env.orgDefaultEnvironment ≠ some eeId then
        .ok ⟨true, [], if check_mode then none else some eeId⟩
      else
        .ok ⟨false, [], none⟩

/-- The resolution loop over the desired galaxy credentials (lines
78-90): each credential that resolves is added to the desired id set,
each one that does not adds a warning; a resolver error propagates. -/
def resolve_creds (lookup : Ref → List LookupItem) :
    List Ref → List Int → List String → Except String (List Int × List String)
  | [], acc, ws => .ok (acc, ws)
  | cred :: rest, acc, ws =>
    match (resolve_id (lookup cred) cred).1 with
    | .error e => .error e
    | .ok none => resolve_creds lookup rest acc (ws ++ [gcWarnMsg cred])
    | .ok (some cid) => resolve_creds lookup rest (pyInsert acc cid) ws

/-- The galaxy_credentials section of post_ensure (lines 76-114):
resolve the desired credentials, diff the resulting id set against the
current id set, and issue one POST per missing id and one DELETE per
extra id, each set iterated in sorted order, outside check mode. -/
def gc_step (env : AAPEnv) (desired_gc : Option (List Ref)) (check_mode : Bool) :
    Except String GCOutcome :=
  match desired_gc with
  | none => .ok ⟨false, [], [], []⟩
  | some creds =>
    match resolve_creds env.credLookup creds [] [] with
    | .error e => .error e
    | .ok (desired_ids, ws) =>
      let current_ids := pySetOf env.galaxyCredentialIds
      let to_add := desired_ids.filter (fun i => decide (i ∉ current_ids))
      let to_del := current_ids.filter (fun i => decide (i ∉ desired_ids))
      if to_add ≠ [] ∨ to_del ≠ [] then
        if check_mode then .ok ⟨true, ws, [], []⟩
        else
          .ok ⟨true, ws, to_add.insertionSort (· ≤ ·), to_del.insertionSort (· ≤ ·)⟩
      else .ok ⟨false, ws, [], []⟩

/-- Result of the early-return paths of post_ensure. -/
def noResult : PostEnsureResult := ⟨false, [], none, [], []⟩

/-- Embedding of AAPOrganization.post_ensure (lines 31-116): a falsy
item id (absent or zero) or a state other than present/enforced
returns False with no calls; otherwise the default_environment and
galaxy_credentials sections run in order and the changed flags and
warnings combine. -/
def post_ensure (env : AAPEnv) (params : OrgParams) (item_id : Option Int)
    (check_mode : Bool) : Except String PostEnsureResult :=
  match item_id with
  | none => .ok noResult
  | some org_id =>
    if org_id = 0 then .ok noResult
    else if params.state ≠ "present" ∧ params.state ≠ "enforced" then .ok noResult
    else
      match ee_step env params.default_environment check_mode with
      | .error e => .error e
      | .ok ee =>
        match gc_step env params.galaxy_credentials check_mode with
        | .error e => .error e
        | .ok gc =>
          .ok ⟨ee.changed || gc.changed, ee.warnings ++ gc.warnings,
               ee.eePatch, gc.gcAdds, gc.gcDels⟩

/-- The raw body of an HTTP response as seen by the open helper:
empty (falsy), a body json.loads accepts (its parse abstracted to a
payload), or a body json.loads rejects. -/
inductive RawBody
  | empty
  | json (payload : String)
  | malformed (bytes : String)
deriving DecidableEq, Repr

/-- The parsed document the open helper returns: the empty dict of the
falsy-body and parse-failure branches, or a parsed payload. -/
inductive JsonDoc
  | emptyDict
  | doc (payload : String)
deriving DecidableEq, Repr

/-- Body handling at lines 201-205 of aap_organization.py: an empty
body yields the empty dict, a parse failure is swallowed and also
yields the empty dict. -/
def readBody : RawBody → Except String JsonDoc
  | .empty => .ok .emptyDict
  | .json payload => .ok (.doc payload)
  | .malformed _ => .ok .emptyDict

/-- Embedding of AAPOrganization.open (lines 176-205).  The response
is embedded as its status code (none when the response object has no
code attribute) and raw body; fail_json is an Except error carrying
the formatted message. -/
def open_req (gw_base method path : String) (respCode : Option Nat)
    (respBody : RawBody) (expect_status : List Nat) : Except String JsonDoc :=
  let url := gw_base ++ path
  match respCode with
  | some c =>
    if expect_status ≠ [] ∧ c ∉ expect_status then
      .error ("HTTP " ++ method ++ " " ++ url ++ " -> unexpected " ++ toString c)
    else readBody respBody
  | none => readBody respBody

/-- Python truthiness-based a or b over two optional strings, then
formatted by an f-string: a missing or falsy value falls through, and
a missing result formats as None. -/
def pyOrStr (a b : Option String) : String :=
  match a with
  | some s => if s.isEmpty then pyStrOfOptName b else s
  | none => pyStrOfOptName b

/-- Python truthiness-based a or b over an optional int and an
optional string, formatted by an f-string: zero and None are falsy. -/
def pyOrIntStr (a : Option Int) (b : Option String) : String :=
  match a with
  | some n => if n = 0 then pyStrOfOptName b else toString n
  | none => pyStrOfOptName b

/-- A mutating call issued by assign_team_role, with the existing
assignment it was given. -/
inductive TeamRoleCall
  | deleteIfNeeded (existing : Option Int)
  | createIfNeeded (existing : Option Int)
deriving DecidableEq, Repr

/-- The role_args dict assign_team_role reads (the existing assignment
is embedded as its id, none when no assignment matched). -/
structure TeamRoleArgs where
  state : String
  role_team_assignment : Option Int
  role_definition_str : String
  team_param : Option String
  team_ansible_id : Option String
  object_id : Option Int
  object_ansible_id : Option String

/-- Embedding of assign_team_role (lines 115-146 of
role_team_assignment.py): the mutating calls issued and the fatal
error raised, if any.  fail_json terminates the module, so the
exit_json after it at line 133 is unreachable and the exists branch
ends at the error. -/
def assign_team_role (args : TeamRoleArgs) : List TeamRoleCall × Option String :=
  if args.state = "exists" ∧ args.role_team_assignment = none then
    ([], some ("Team role assignment does not exist: " ++ args.role_definition_str ++
      ", team: " ++ pyOrStr args.team_param args.team_ansible_id ++
      ", object: " ++ pyOrIntStr args.object_id args.object_ansible_id))
  else if args.state = "absent" then
    ([.deleteIfNeeded args.role_team_assignment], none)
  else if args.state = "present" then
    ([.createIfNeeded args.role_team_assignment], none)
  else ([], none)

/-- The lookup behaviour as the specification words it (section 4.1),
for comparison with lookup_branch: exactly one exact name match
returns its id; otherwise exactly one returned result returns its id;
otherwise null. -/
def spec_lookup (items : List LookupItem) (s : String) : Option Int :=
  match items.filter (fun it => pyStrOfOptName it.name == s) with
  | [it] => it.id
  | _ =>
    match items with
    | [it] => it.id
    | _ => none

/-! Helper lemmas. -/

theorem pyIsDigit_eq_false_of_slash (s : String) (h : '/' ∈ s.data) :
    pyIsDigit s = false := by
  cases hall : s.data.all Char.isDigit with
  | true =>
    have h2 : Char.isDigit '/' = true := List.all_eq_true.mp hall '/' h
    exact absurd h2 (by decide)
  | false => simp [pyIsDigit, pyIsDigitL, hall]

theorem find?_eq_head?_filter {α : Type} (p : α → Bool) (l : List α) :
    l.find? p = (l.filter p).head? := by
  induction l with
  | nil => rfl
  | cons a t ih =>
    by_cases h : p a = true
    · rw [List.find?_cons_of_pos _ h, List.filter_cons_of_pos h, List.head?_cons]
    · rw [List.find?_cons_of_neg _ (by simpa using h),
        List.filter_cons_of_neg (by simpa using h), ih]

theorem mem_pyInsert {a n : Int} {acc : List Int} :
    a ∈ pyInsert acc n ↔ a ∈ acc ∨ a = n := by
  by_cases h : n ∈ acc
  · simp only [pyInsert, if_pos h]
    exact ⟨Or.inl, fun x => x.elim id (fun he => he ▸ h)⟩
  · simp [pyInsert, h]

theorem nodup_pyInsert {acc : List Int} {n : Int} (h : acc.Nodup) :
    (pyInsert acc n).Nodup := by
  by_cases hm : n ∈ acc
  · simpa [pyInsert, hm] using h
  · simp [pyInsert, hm, List.nodup_append, h]

theorem foldl_pyInsert_mem (ds : List Int) :
    ∀ (acc : List Int) (a : Int), a ∈ ds.foldl pyInsert acc ↔ a ∈ acc ∨ a ∈ ds := by
  induction ds with
  | nil => simp
  | cons d rest ih =>
    intro acc a
    rw [List.foldl_cons, ih, mem_pyInsert]
    simp [or_assoc]

theorem foldl_pyInsert_nodup (ds : List Int) :
    ∀ acc : List Int, acc.Nodup → (ds.foldl pyInsert acc).Nodup := by
  induction ds with
  | nil => exact fun _ h => h
  | cons d rest ih => exact fun acc h => ih _ (nodup_pyInsert h)

theorem pySetOf_mem {l : List Int} {a : Int} : a ∈ pySetOf l ↔ a ∈ l := by
  simpa [pySetOf] using foldl_pyInsert_mem l [] a

theorem pySetOf_nodup (l : List Int) : (pySetOf l).Nodup :=
  foldl_pyInsert_nodup l [] (by simp)

theorem post_ensure_present (env : AAPEnv) (p : OrgParams) (orgId : Int) (cm : Bool)
    (h0 : orgId ≠ 0) (hst : p.state = "present") :
    post_ensure env p (some orgId) cm =
      match ee_step env p.default_environment cm with
      | .error e => .error e
      | .ok ee =>
        match gc_step env p.galaxy_credentials cm with
        | .error e => .error e
        | .ok gc =>
          .ok ⟨ee.changed || gc.changed, ee.warnings ++ gc.warnings,
               ee.eePatch, gc.gcAdds, gc.gcDels⟩ := by
  simp [post_ensure, h0, hst]

theorem ee_step_none (env : AAPEnv) (cm : Bool) :
    ee_step env .pyNone cm = .ok ⟨false, [], none⟩ := rfl

theorem resolve_id_bad_name (items : List LookupItem) (s : String)
    (hd : pyIsDigit s = false) (hs : '/' ∉ s.data) :
    resolve_id items (.pyStr s) = (lookup_branch items s, true) := by
  simp [resolve_id, hd, hs]

theorem ee_step_unresolved (env : AAPEnv) (name : String) (cm : Bool)
    (hd : pyIsDigit name = false) (hs : '/' ∉ name.data)
    (hl : env.eeLookup (.pyStr name) = []) :
    ee_step env (.pyStr name) cm = .ok ⟨false, [eeWarnMsg (.pyStr name)], none⟩ := by
  have h1 : (resolve_id (env.eeLookup (.pyStr name)) (.pyStr name)).1 = .ok none := by
    rw [hl, resolve_id_bad_name [] name hd hs]
    rfl
  simp [ee_step, h1]

theorem resolve_creds_ints_append (lookup : Ref → List LookupItem) (ds : List Int)
    (rest : List Ref) :
    ∀ (acc : List Int) (ws : List String),
      resolve_creds lookup (ds.map Ref.pyInt ++ rest) acc ws =
        resolve_creds lookup rest (ds.foldl pyInsert acc) ws := by
  induction ds with
  | nil => intro acc ws; rfl
  | cons d t ih =>
    intro acc ws
    simp only [List.map_cons, List.cons_append, resolve_creds, resolve_id, List.foldl_cons]
    exact ih _ _

theorem resolve_creds_ints (lookup : Ref → List LookupItem) (ds : List Int)
    (acc : List Int) (ws : List String) :
    resolve_creds lookup (ds.map Ref.pyInt) acc ws = .ok (ds.foldl pyInsert acc, ws) := by
  simpa using resolve_creds_ints_append lookup ds [] acc ws

/-- Characterization of post_ensure when the desired galaxy
credentials are integer references (hence resolvable with no lookup),
the default environment is omitted, and check mode is off. -/
theorem post_ensure_ints_spec (env : AAPEnv) (ds : List Int) (orgId : Int)
    (h0 : orgId ≠ 0) :
    ∃ r, post_ensure env ⟨"present", Ref.pyNone, some (ds.map Ref.pyInt)⟩
        (some orgId) false = .ok r ∧
      r.warnings = [] ∧ r.eePatch = none ∧
      r.gcAdds.Nodup ∧
      (∀ i, i ∈ r.gcAdds ↔ i ∈ ds ∧ i ∉ env.galaxyCredentialIds) ∧
      r.gcDels.Nodup ∧
      (∀ i, i ∈ r.gcDels ↔ i ∈ env.galaxyCredentialIds ∧ i ∉ ds) ∧
      (r.changed = true ↔
        ∃ i, (i ∈ ds ∧ i ∉ env.galaxyCredentialIds) ∨
          (i ∈ env.galaxyCredentialIds ∧ i ∉ ds)) := by
  rw [post_ensure_present env _ orgId false h0 rfl, ee_step_none]
  simp only [gc_step, resolve_creds_ints]
  set D := ds.foldl pyInsert [] with hD
  set C := pySetOf env.galaxyCredentialIds with hC
  have hmemD : ∀ i, i ∈ D ↔ i ∈ ds := by
    intro i; rw [hD, foldl_pyInsert_mem]; simp
  have hmemC : ∀ i, i ∈ C ↔ i ∈ env.galaxyCredentialIds := fun i => pySetOf_mem
  have hndD : D.Nodup := foldl_pyInsert_nodup ds [] (by simp)
  have hndC : C.Nodup := pySetOf_nodup _
  set ta := D.filter (fun i => decide (i ∉ C)) with hta
  set td := C.filter (fun i => decide (i ∉ D)) with htd
  have hmemta : ∀ i, i ∈ ta ↔ i ∈ ds ∧ i ∉ env.galaxyCredentialIds := by
    intro i
    rw [hta, List.mem_filter]
    simp [hmemD, hmemC]
  have hmemtd : ∀ i, i ∈ td ↔ i ∈ env.galaxyCredentialIds ∧ i ∉ ds := by
    intro i
    rw [htd, List.mem_filter]
    simp [hmemD, hmemC]
  by_cases hch : ta ≠ [] ∨ td ≠ []
  · refine ⟨⟨true, [], none, ta.insertionSort (· ≤ ·), td.insertionSort (· ≤ ·)⟩,
      by simp [hch], rfl, rfl, ?_, ?_, ?_, ?_, ?_⟩
    · exact ((ta.perm_insertionSort (· ≤ ·)).nodup_iff).mpr (hndD.filter _)
    · intro i
      rw [List.Perm.mem_iff (ta.perm_insertionSort (· ≤ ·))]
      exact hmemta i
    · exact ((td.perm_insertionSort (· ≤ ·)).nodup_iff).mpr (hndC.filter _)
    · intro i
      rw [List.Perm.mem_iff (td.perm_insertionSort (· ≤ ·))]
      exact hmemtd i
    · refine iff_of_true rfl ?_
      rcases hch with h | h
      · obtain ⟨x, hx⟩ := List.exists_mem_of_ne_nil _ h
        exact ⟨x, Or.inl ((hmemta x).mp hx)⟩
      · obtain ⟨x, hx⟩ := List.exists_mem_of_ne_nil _ h
        exact ⟨x, Or.inr ((hmemtd x).mp hx)⟩
  · push_neg at hch
    obtain ⟨hta0, htd0⟩ := hch
    refine ⟨⟨false, [], none, [], []⟩, by simp [hta0, htd0], rfl, rfl,
      List.nodup_nil, ?_, List.nodup_nil, ?_, ?_⟩
    · intro i
      refine iff_of_false (List.not_mem_nil i) ?_
      intro hmem
      exact (List.ne_nil_of_mem ((hmemta i).mpr hmem)) hta0
    · intro i
      refine iff_of_false (List.not_mem_nil i) ?_
      intro hmem
      exact (List.ne_nil_of_mem ((hmemtd i).mpr hmem)) htd0
    · refine iff_of_false (by simp) ?_
      rintro ⟨x, hx | hx⟩
      · exact (List.ne_nil_of_mem ((hmemta x).mpr hx)) hta0
      · exact (List.ne_nil_of_mem ((hmemtd x).mpr hx)) htd0

theorem ee_step_check_mode (env : AAPEnv) (de : Ref) :
    ee_step env de true =
      (ee_step env de false).map (fun o => ⟨o.changed, o.warnings, none⟩) := by
  unfold ee_step
  by_cases h : de = Ref.pyNone
  · simp [h, Except.map]
  · rcases hr : (resolve_id (env.eeLookup de) de).1 with e | o
    · simp [h, hr, Except.map]
    · cases o with
      | none => simp [h, hr, Except.map]
      | some eeId =>
        by_cases hne : env.orgDefaultEnvironment ≠ some eeId <;>
          simp [h, hr, hne, Except.map]

theorem gc_step_check_mode (env : AAPEnv) (g : Option (List Ref)) :
    gc_step env g true =
      (gc_step env g false).map (fun o => ⟨o.changed, o.warnings, [], []⟩) := by
  unfold gc_step
  cases g with
  | none => simp [Except.map]
  | some creds =>
    rcases hr : resolve_creds env.credLookup creds [] [] with e | dws
    · simp [hr, Except.map]
    · obtain ⟨d, ws⟩ := dws
      simp only [hr]
      split_ifs with hch <;> simp [Except.map]

theorem gc_step_skip_bad (env : AAPEnv) (bs : String) (la lb : List Int) (cm : Bool)
    (hd : pyIsDigit bs = false) (hs : '/' ∉ bs.data)
    (hl : env.credLookup (.pyStr bs) = []) :
    gc_step env (some (la.map Ref.pyInt ++ Ref.pyStr bs :: lb.map Ref.pyInt)) cm =
      (gc_step env (some ((la ++ lb).map Ref.pyInt)) cm).map
        (fun g => ⟨g.changed, g.warnings ++ [gcWarnMsg (.pyStr bs)], g.gcAdds, g.gcDels⟩) := by
  have hb : (resolve_id (env.credLookup (.pyStr bs)) (.pyStr bs)).1 = .ok none := by
    rw [hl, resolve_id_bad_name [] bs hd hs]
    rfl
  have h1 : resolve_creds env.credLookup
      (la.map Ref.pyInt ++ Ref.pyStr bs :: lb.map Ref.pyInt) [] [] =
      .ok ((la ++ lb).foldl pyInsert [], [gcWarnMsg (.pyStr bs)]) := by
    rw [resolve_creds_ints_append]
    simp only [resolve_creds, hb]
    rw [resolve_creds_ints]
    simp [List.foldl_append]
  have h2 : resolve_creds env.credLookup ((la ++ lb).map Ref.pyInt) [] [] =
      .ok ((la ++ lb).foldl pyInsert [], []) := resolve_creds_ints _ _ _ _
  simp only [gc_step, h1, h2]
  split_ifs with hch hcm <;> simp [Except.map]

/-! Claim theorems. -/

theorem post_ensure_present2 (env : AAPEnv) (de : Ref) (gcs : Option (List Ref))
    (orgId : Int) (cm : Bool) (h0 : orgId ≠ 0) :
    post_ensure env ⟨"present", de, gcs⟩ (some orgId) cm =
      match ee_step env de cm with
      | .error e => .error e
      | .ok ee =>
        match gc_step env gcs cm with
        | .error e => .error e
        | .ok gc =>
          .ok ⟨ee.changed || gc.changed, ee.warnings ++ gc.warnings,
               ee.eePatch, gc.gcAdds, gc.gcDels⟩ := by
  rw [post_ensure_present env ⟨"present", de, gcs⟩ orgId cm h0 rfl]

/-- Claim C6: an unresolvable auxiliary reference does not fail the
operation: it only records a warning and skips that one relation,
leaving the rest of the reconciliation exactly as it would have been.
The first part treats an unresolvable default_environment, the second
an unresolvable credential inside the desired galaxy list. -/
theorem unresolved_reference_claim (env : AAPEnv) (orgId : Int) (cm : Bool)
    (h0 : orgId ≠ 0) :
    (∀ (name : String) (gcs : Option (List Ref)),
      pyIsDigit name = false → '/' ∉ name.data → env.eeLookup (.pyStr name) = [] →
      (post_ensure env ⟨"present", .pyStr name, gcs⟩ (some orgId) cm =
        (post_ensure env ⟨"present", .pyNone, gcs⟩ (some orgId) cm).map
          (fun r => ⟨r.changed, eeWarnMsg (.pyStr name) :: r.warnings, none,
            r.gcAdds, r.gcDels⟩) ∧
       ∀ r, post_ensure env ⟨"present", .pyStr name, gcs⟩ (some orgId) cm = .ok r →
         r.eePatch = none ∧ eeWarnMsg (.pyStr name) ∈ r.warnings)) ∧
    (∀ (bs : String) (la lb : List Int),
      pyIsDigit bs = false → '/' ∉ bs.data → env.credLookup (.pyStr bs) = [] →
      post_ensure env
          ⟨"present", .pyNone, some (la.map Ref.pyInt ++ Ref.pyStr bs :: lb.map Ref.pyInt)⟩
          (some orgId) cm =
        (post_ensure env ⟨"present", .pyNone, some ((la ++ lb).map Ref.pyInt)⟩
            (some orgId) cm).map
          (fun r => ⟨r.changed, r.warnings ++ [gcWarnMsg (.pyStr bs)], r.eePatch,
            r.gcAdds, r.gcDels⟩)) := by
  constructor
  · intro name gcs hd hs hl
    have heq : post_ensure env ⟨"present", .pyStr name, gcs⟩ (some orgId) cm =
        (post_ensure env ⟨"present", .pyNone, gcs⟩ (some orgId) cm).map
          (fun r => ⟨r.changed, eeWarnMsg (.pyStr name) :: r.warnings, none,
            r.gcAdds, r.gcDels⟩) := by
      rw [post_ensure_present2 env (.pyStr name) gcs orgId cm h0,
        post_ensure_present2 env .pyNone gcs orgId cm h0,
        ee_step_unresolved env name cm hd hs hl, ee_step_none]
      rcases hgc : gc_step env gcs cm with e | gc <;> simp [Except.map]
    refine ⟨heq, fun r hok => ?_⟩
    rw [heq] at hok
    rcases hpe : post_ensure env ⟨"present", .pyNone, gcs⟩ (some orgId) cm with e | r2
    · rw [hpe] at hok
      exact absurd hok (by simp [Except.map])
    · rw [hpe] at hok
      simp only [Except.map] at hok
      obtain rfl := (Except.ok.injEq _ _).mp hok.symm
      exact ⟨rfl, List.mem_cons_self _ _⟩
  · intro bs la lb hd hs hl
    rw [post_ensure_present2 env .pyNone _ orgId cm h0,
      post_ensure_present2 env .pyNone _ orgId cm h0,
      ee_step_none, gc_step_skip_bad env bs la lb cm hd hs hl]
    rcases hgc : gc_step env (some ((la ++ lb).map Ref.pyInt)) cm with e | gc <;>
      simp [hgc, Except.map]

theorem unresolved_reference_witness :
    (pyIsDigit "missing" = false ∧ '/' ∉ "missing".data) ∧
    post_ensure ⟨fun _ => [], fun _ => [], some 7, [2, 3, 4]⟩
      ⟨"present", .pyStr "missing", none⟩ (some 10) false =
      (post_ensure ⟨fun _ => [], fun _ => [], some 7, [2, 3, 4]⟩
        ⟨"present", .pyNone, none⟩ (some 10) false).map
        (fun r => ⟨r.changed, eeWarnMsg (.pyStr "missing") :: r.warnings, none,
          r.gcAdds, r.gcDels⟩) :=
  ⟨⟨by decide, by decide⟩,
    ((unresolved_reference_claim ⟨fun _ => [], fun _ => [], some 7, [2, 3, 4]⟩ 10 false
      (by decide)).1 "missing" none (by decide) (by decide) rfl).1⟩

/-- Claim C10: with check mode on, post_ensure reports the changed
flag exactly as in normal mode but issues no PATCH, POST or DELETE
call. -/
theorem check_mode_frame_claim (env : AAPEnv) (p : OrgParams) (iid : Option Int) :
    (post_ensure env p iid true).map PostEnsureResult.changed =
      (post_ensure env p iid false).map PostEnsureResult.changed ∧
    ∀ r, post_ensure env p iid true = .ok r →
      r.eePatch = none ∧ r.gcAdds = [] ∧ r.gcDels = [] := by
  cases iid with
  | none =>
    refine ⟨rfl, fun r hok => ?_⟩
    simp only [post_ensure] at hok
    obtain rfl := (Except.ok.injEq _ _).mp hok.symm
    exact ⟨rfl, rfl, rfl⟩
  | some org =>
    by_cases hz : org = 0
    · refine ⟨by simp [post_ensure, hz], fun r hok => ?_⟩
      simp only [post_ensure, if_pos hz] at hok
      obtain rfl := (Except.ok.injEq _ _).mp hok.symm
      exact ⟨rfl, rfl, rfl⟩
    · by_cases hst : p.state ≠ "present" ∧ p.state ≠ "enforced"
      · refine ⟨by simp [post_ensure, hz, hst], fun r hok => ?_⟩
        simp only [post_ensure, if_neg hz, if_pos hst] at hok
        obtain rfl := (Except.ok.injEq _ _).mp hok.symm
        exact ⟨rfl, rfl, rfl⟩
      · simp only [post_ensure, if_neg hz, if_neg hst]
        rw [ee_step_check_mode, gc_step_check_mode]
        rcases hee : ee_step env p.default_environment false with e | ee <;>
          rcases hgc : gc_step env p.galaxy_credentials false with e2 | gc <;>
            simp [hee, hgc, Except.map]

theorem check_mode_frame_witness :
    (post_ensure ⟨fun _ => [], fun _ => [], some 7, [2, 3, 4]⟩
      ⟨"present", Ref.pyNone, some ([1, 2, 3].map Ref.pyInt)⟩ (some 10) true).map
        PostEnsureResult.changed =
      (post_ensure ⟨fun _ => [], fun _ => [], some 7, [2, 3, 4]⟩
        ⟨"present", Ref.pyNone, some ([1, 2, 3].map Ref.pyInt)⟩ (some 10) false).map
        PostEnsureResult.changed ∧
    (PostEnsureResult.eePatch ⟨true, [], none, [], []⟩ = none ∧
      PostEnsureResult.gcAdds ⟨true, [], none, [], []⟩ = [] ∧
      PostEnsureResult.gcDels ⟨true, [], none, [], []⟩ = []) :=
  ⟨(check_mode_frame_claim ⟨fun _ => [], fun _ => [], some 7, [2, 3, 4]⟩
      ⟨"present", Ref.pyNone, some ([1, 2, 3].map Ref.pyInt)⟩ (some 10)).1,
   (check_mode_frame_claim ⟨fun _ => [], fun _ => [], some 7, [2, 3, 4]⟩
      ⟨"present", Ref.pyNone, some ([1, 2, 3].map Ref.pyInt)⟩ (some 10)).2
     ⟨true, [], none, [], []⟩ (by rfl)⟩

/-- Claim C1: for a desired galaxy-credential set of resolvable ids
and a current set, the reconciliation issues exactly one add per id in
desired minus current and exactly one remove per id in current minus
desired, and reports changed exactly when the symmetric difference is
non-empty. -/
theorem galaxy_symmetric_difference_claim (env : AAPEnv) (ds : List Int)
    (orgId : Int) (h0 : orgId ≠ 0) :
    ∃ r, post_ensure env ⟨"present", Ref.pyNone, some (ds.map Ref.pyInt)⟩
        (some orgId) false = .ok r ∧
      r.gcAdds.Nodup ∧
      (∀ i, i ∈ r.gcAdds ↔ i ∈ ds ∧ i ∉ env.galaxyCredentialIds) ∧
      r.gcDels.Nodup ∧
      (∀ i, i ∈ r.gcDels ↔ i ∈ env.galaxyCredentialIds ∧ i ∉ ds) ∧
      (r.changed = true ↔
        ∃ i, (i ∈ ds ∧ i ∉ env.galaxyCredentialIds) ∨
          (i ∈ env.galaxyCredentialIds ∧ i ∉ ds)) := by
  obtain ⟨r, hok, _, _, h1, h2, h3, h4, h5⟩ := post_ensure_ints_spec env ds orgId h0
  exact ⟨r, hok, h1, h2, h3, h4, h5⟩

theorem galaxy_symmetric_difference_witness :
    (10 : Int) ≠ 0 ∧
    post_ensure ⟨fun _ => [], fun _ => [], some 7, [2, 3, 4]⟩
      ⟨"present", Ref.pyNone, some ([1, 2, 3].map Ref.pyInt)⟩ (some 10) false =
      .ok ⟨true, [], none, [1], [4]⟩ := by
  refine ⟨by decide, ?_⟩
  obtain ⟨r, hok, -⟩ :=
    galaxy_symmetric_difference_claim ⟨fun _ => [], fun _ => [], some 7, [2, 3, 4]⟩
      [1, 2, 3] 10 (by decide)
  have hr : r = ⟨true, [], none, [1], [4]⟩ := by
    have := hok.symm.trans (by rfl :
      post_ensure ⟨fun _ => [], fun _ => [], some 7, [2, 3, 4]⟩
        ⟨"present", Ref.pyNone, some ([1, 2, 3].map Ref.pyInt)⟩ (some 10) false =
        .ok ⟨true, [], none, [1], [4]⟩)
    exact (Except.ok.injEq _ _).mp this
  rw [hok, hr]

/-- Claim C2: after a non-check-mode reconciliation the current
association set, updated by the issued removes and adds, equals the
desired set of resolved ids; a null desired set issues no adds or
removes at all. -/
theorem association_invariant_claim (env : AAPEnv) (orgId : Int) (h0 : orgId ≠ 0) :
    (∀ ds : List Int, ∃ r,
      post_ensure env ⟨"present", Ref.pyNone, some (ds.map Ref.pyInt)⟩
        (some orgId) false = .ok r ∧
      ∀ i, ((i ∈ env.galaxyCredentialIds ∧ i ∉ r.gcDels) ∨ i ∈ r.gcAdds) ↔ i ∈ ds) ∧
    (∀ (p : OrgParams) (iid : Option Int) (cm : Bool) (r : PostEnsureResult),
      p.galaxy_credentials = none → post_ensure env p iid cm = .ok r →
      r.gcAdds = [] ∧ r.gcDels = []) := by
  constructor
  · intro ds
    obtain ⟨r, hok, _, _, _, hadds, _, hdels, _⟩ := post_ensure_ints_spec env ds orgId h0
    refine ⟨r, hok, fun i => ?_⟩
    rw [hadds i]
    constructor
    · rintro (⟨hc, hnd⟩ | ⟨hd, -⟩)
      · by_contra hni
        exact hnd ((hdels i).mpr ⟨hc, hni⟩)
      · exact hd
    · intro hd
      by_cases hc : i ∈ env.galaxyCredentialIds
      · exact Or.inl ⟨hc, fun hmem => ((hdels i).mp hmem).2 hd⟩
      · exact Or.inr ⟨hd, hc⟩
  · intro p iid cm r hgc hok
    cases iid with
    | none =>
      simp only [post_ensure] at hok
      obtain rfl := (Except.ok.injEq _ _).mp hok.symm
      exact ⟨rfl, rfl⟩
    | some org =>
      simp only [post_ensure] at hok
      by_cases hz : org = 0
      · rw [if_pos hz] at hok
        obtain rfl := (Except.ok.injEq _ _).mp hok.symm
        exact ⟨rfl, rfl⟩
      · rw [if_neg hz] at hok
        by_cases hst : p.state ≠ "present" ∧ p.state ≠ "enforced"
        · rw [if_pos hst] at hok
          obtain rfl := (Except.ok.injEq _ _).mp hok.symm
          exact ⟨rfl, rfl⟩
        · rw [if_neg hst, hgc] at hok
          rcases hee : ee_step env p.default_environment cm with e | ee
          · rw [hee] at hok
            exact absurd hok (by simp)
          · rw [hee] at hok
            have hgcs : gc_step env none cm = .ok ⟨false, [], [], []⟩ := rfl
            rw [hgcs] at hok
            obtain rfl := (Except.ok.injEq _ _).mp hok.symm
            exact ⟨rfl, rfl⟩

theorem association_invariant_witness :
    post_ensure ⟨fun _ => [], fun _ => [], some 7, [2, 3, 4]⟩
      ⟨"present", Ref.pyNone, some ([1, 2, 3].map Ref.pyInt)⟩ (some 10) false =
      .ok ⟨true, [], none, [1], [4]⟩ ∧
    ((((1 : Int) ∈ [(2 : Int), 3, 4] ∧ (1 : Int) ∉ [(4 : Int)]) ∨ (1 : Int) ∈ [(1 : Int)]) ↔
      (1 : Int) ∈ [(1 : Int), 2, 3]) ∧
    ((((4 : Int) ∈ [(2 : Int), 3, 4] ∧ (4 : Int) ∉ [(4 : Int)]) ∨ (4 : Int) ∈ [(1 : Int)]) ↔
      (4 : Int) ∈ [(1 : Int), 2, 3]) := by
  obtain ⟨r, hok, hiff⟩ :=
    (association_invariant_claim ⟨fun _ => [], fun _ => [], some 7, [2, 3, 4]⟩ 10
      (by decide)).1 [1, 2, 3]
  have hr : r = ⟨true, [], none, [1], [4]⟩ := by
    have h2 := hok.symm.trans (by rfl :
      post_ensure ⟨fun _ => [], fun _ => [], some 7, [2, 3, 4]⟩
        ⟨"present", Ref.pyNone, some ([1, 2, 3].map Ref.pyInt)⟩ (some 10) false =
        .ok ⟨true, [], none, [1], [4]⟩)
    exact (Except.ok.injEq _ _).mp h2
  subst hr
  exact ⟨hok, hiff 1, hiff 4⟩

/-- Claim C3: a reference that is already an integer, or a string of
only digits, resolves directly to that integer id with no network
read. -/
theorem resolver_direct_integer_claim :
    (∀ (items : List LookupItem) (n : Int),
      resolve_id items (.pyInt n) = (.ok (some n), false)) ∧
    (∀ (items : List LookupItem) (s : String), pyIsDigit s = true →
      resolve_id items (.pyStr s) = (.ok (some ((digitsVal s : Nat) : Int)), false)) := by
  refine ⟨fun items n => rfl, fun items s h => ?_⟩
  simp [resolve_id, h]

theorem resolver_direct_integer_witness :
    pyIsDigit "42" = true ∧
    resolve_id [] (.pyStr "42") = (.ok (some ((digitsVal "42" : Nat) : Int)), false) ∧
    ((digitsVal "42" : Nat) : Int) = 42 ∧
    resolve_id [] (.pyInt 7) = (.ok (some 7), false) :=
  ⟨by decide, resolver_direct_integer_claim.2 [] "42" (by decide), by decide,
    resolver_direct_integer_claim.1 [] 7⟩

/-- Claim C4: for a reference string containing a path separator, a
numeric last non-empty segment is returned directly as the id with no
network read, and a non-numeric last segment sends the resolver to the
name-lookup branch instead of using the segment. -/
theorem resolver_path_segment_claim (items : List LookupItem) (s : String)
    (hslash : '/' ∈ s.data) :
    (∀ last, (pathSegments s).getLast? = some last → pyIsDigitL last = true →
      resolve_id items (.pyStr s) = (.ok (some ((digitsValL last : Nat) : Int)), false)) ∧
    (∀ last, (pathSegments s).getLast? = some last → pyIsDigitL last = false →
      resolve_id items (.pyStr s) = (lookup_branch items s, true)) := by
  have hd := pyIsDigit_eq_false_of_slash s hslash
  constructor
  · intro last hlast hdig
    simp [resolve_id, hd, hslash, hlast, hdig]
  · intro last hlast hdig
    simp [resolve_id, hd, hslash, hlast, hdig]

theorem resolver_path_segment_witness :
    ('/' ∈ "teams/42/".data ∧
      (pathSegments "teams/42/").getLast? = some ['4', '2'] ∧
      pyIsDigitL ['4', '2'] = true ∧
      resolve_id [] (.pyStr "teams/42/") = (.ok (some ((digitsValL ['4', '2'] : Nat) : Int)), false)) ∧
    ('/' ∈ "a/b".data ∧
      (pathSegments "a/b").getLast? = some ['b'] ∧
      pyIsDigitL ['b'] = false ∧
      resolve_id [] (.pyStr "a/b") = (lookup_branch [] "a/b", true)) :=
  ⟨⟨by decide, by decide, by decide,
    (resolver_path_segment_claim [] "teams/42/" (by decide)).1 ['4', '2'] (by decide) (by decide)⟩,
   ⟨by decide, by decide, by decide,
    (resolver_path_segment_claim [] "a/b" (by decide)).2 ['b'] (by decide) (by decide)⟩⟩

/-- Claim C5, counterexample: when two results both match the name
exactly, the claim says the resolver returns null, but the code
returns the id of the first exact match. -/
theorem resolver_lookup_counterexample :
    resolve_id [⟨some 1, some "x"⟩, ⟨some 2, some "x"⟩] (.pyStr "x") = (.ok (some 1), true) ∧
    spec_lookup [⟨some 1, some "x"⟩, ⟨some 2, some "x"⟩] "x" = none :=
  ⟨rfl, rfl⟩

/-- Claim C5, amended: when at least one result matches the name
exactly the resolver returns the id of the first such result; with no
exact match, a single-element result list yields its id and any other
result list yields null; it returns a value rather than raising
whenever every result carries an id. -/
theorem resolver_lookup_amended_claim (items : List LookupItem) (s : String)
    (hid : ∀ it ∈ items, it.id.isSome) :
    (∀ it, (items.filter (fun it => pyStrOfOptName it.name == s)).head? = some it →
      lookup_branch items s = .ok it.id) ∧
    ((items.filter (fun it => pyStrOfOptName it.name == s)) = [] →
      (∀ it, items = [it] → lookup_branch items s = .ok it.id) ∧
      (∀ it1 it2 rest, items = it1 :: it2 :: rest → lookup_branch items s = .ok none) ∧
      (items = [] → lookup_branch items s = .ok none)) ∧
    (∃ v, lookup_branch items s = .ok v) := by
  have hfind := find?_eq_head?_filter (fun it => pyStrOfOptName it.name == s) items
  refine ⟨?_, ?_, ?_⟩
  · intro it hhead
    have hmem : it ∈ items := by
      have : it ∈ items.filter (fun it => pyStrOfOptName it.name == s) :=
        List.mem_of_mem_head? hhead
      exact List.mem_of_mem_filter this
    obtain ⟨i, hi⟩ := Option.isSome_iff_exists.mp (hid it hmem)
    simp [lookup_branch, hfind, hhead, hi]
  · intro hnil
    refine ⟨?_, ?_, ?_⟩
    · rintro it rfl
      obtain ⟨i, hi⟩ := Option.isSome_iff_exists.mp (hid it (by simp))
      simp [lookup_branch, hfind, hnil, hi]
    · rintro it1 it2 rest rfl
      simp [lookup_branch, hfind, hnil]
    · rintro rfl
      simp [lookup_branch, hfind, hnil]
  · unfold lookup_branch
    rw [hfind]
    cases hhead : (items.filter (fun it => pyStrOfOptName it.name == s)).head? with
    | some it =>
      have hmem : it ∈ items :=
        List.mem_of_mem_filter (List.mem_of_mem_head? hhead)
      obtain ⟨i, hi⟩ := Option.isSome_iff_exists.mp (hid it hmem)
      exact ⟨some i, by simp [hi]⟩
    | none =>
      match items, hid with
      | [], _ => exact ⟨none, rfl⟩
      | [it], hid =>
        obtain ⟨i, hi⟩ := Option.isSome_iff_exists.mp (hid it (by simp))
        exact ⟨some i, by simp [hi]⟩
      | it1 :: it2 :: rest, _ => exact ⟨none, rfl⟩

theorem resolver_lookup_amended_witness :
    (([(⟨some 3, some "x"⟩ : LookupItem), ⟨some 4, some "y"⟩].filter
        (fun it => pyStrOfOptName it.name == "x")).head? = some ⟨some 3, some "x"⟩) ∧
    lookup_branch [⟨some 3, some "x"⟩, ⟨some 4, some "y"⟩] "x" =
      .ok (LookupItem.id ⟨some 3, some "x"⟩) :=
  ⟨by decide,
    (resolver_lookup_amended_claim [⟨some 3, some "x"⟩, ⟨some 4, some "y"⟩] "x"
      (by decide)).1 ⟨some 3, some "x"⟩ (by decide)⟩

/-- Claim C7, counterexample: two different expected-status sets
produce the very same fatal message, so the error context contains the
method, the URL and the actual status but not the expected set the
claim requires. -/
theorem unexpected_status_counterexample :
    open_req "https://gw" "POST" "/api/x/" (some 500) .empty [201, 204] =
      open_req "https://gw" "POST" "/api/x/" (some 500) .empty [418] ∧
    open_req "https://gw" "POST" "/api/x/" (some 500) .empty [201, 204] =
      .error ("HTTP POST https://gw/api/x/ -> unexpected 500") :=
  ⟨rfl, rfl⟩

/-- Claim C7, amended: a status outside the non-empty expected set
aborts fatally with a message carrying the method, the full URL (hence
the path) and the actual status code; the expected set itself is not
part of the message. -/
theorem unexpected_status_amended_claim (gw method path : String) (c : Nat)
    (body : RawBody) (es : List Nat) (hne : es ≠ []) (hc : c ∉ es) :
    open_req gw method path (some c) body es =
      .error ("HTTP " ++ method ++ " " ++ (gw ++ path) ++ " -> unexpected " ++ toString c) := by
  simp [open_req, hne, hc]

theorem unexpected_status_amended_witness :
    ([201, 204] : List Nat) ≠ [] ∧ (500 : Nat) ∉ ([201, 204] : List Nat) ∧
    open_req "https://gw" "DELETE" "/api/del/" (some 500) .empty [201, 204] =
      .error ("HTTP " ++ "DELETE" ++ " " ++ ("https://gw" ++ "/api/del/") ++
        " -> unexpected " ++ toString (500 : Nat)) :=
  ⟨by decide, by decide,
    unexpected_status_amended_claim "https://gw" "DELETE" "/api/del/" 500 .empty
      [201, 204] (by decide) (by decide)⟩

/-- Claim C8, counterexample: a response body that fails to parse is
not signalled; the helper silently returns the empty dict, the same
value an empty body produces. -/
theorem unparsable_body_counterexample :
    open_req "https://gw" "GET" "/api/y/" (some 200) (.malformed "not-json") [200] =
      .ok .emptyDict ∧
    open_req "https://gw" "GET" "/api/y/" (some 200) (.malformed "not-json") [200] =
      open_req "https://gw" "GET" "/api/y/" (some 200) .empty [200] :=
  ⟨rfl, rfl⟩

/-- Claim C8, amended: on an expected status, an unparsable body is
swallowed: the helper returns the empty dict, indistinguishable from
an empty body, and signals no error. -/
theorem unparsable_body_amended_claim (gw method path : String) (c : Nat)
    (es : List Nat) (b : String) (hc : c ∈ es) :
    open_req gw method path (some c) (.malformed b) es = .ok .emptyDict ∧
    open_req gw method path (some c) (.malformed b) es =
      open_req gw method path (some c) .empty es := by
  constructor <;> simp [open_req, readBody, hc]

theorem unparsable_body_amended_witness :
    (200 : Nat) ∈ ([200] : List Nat) ∧
    open_req "https://gw" "GET" "/api/z/" (some 200) (.malformed "broken") [200] =
      .ok .emptyDict :=
  ⟨by decide,
    (unparsable_body_amended_claim "https://gw" "GET" "/api/z/" 200 [200] "broken"
      (by decide)).1⟩

/-- Claim C9: state exists with no matching assignment fails with the
does-not-exist error and issues no mutating call. -/
theorem exists_state_claim (args : TeamRoleArgs)
    (hs : args.state = "exists") (hn : args.role_team_assignment = none) :
    (assign_team_role args).1 = [] ∧
    (assign_team_role args).2 =
      some ("Team role assignment does not exist: " ++ args.role_definition_str ++
        ", team: " ++ pyOrStr args.team_param args.team_ansible_id ++
        ", object: " ++ pyOrIntStr args.object_id args.object_ansible_id) := by
  constructor <;> simp [assign_team_role, hs, hn]

theorem exists_state_witness :
    (assign_team_role
      ⟨"exists", none, "Organization Inventory Admin", some "APAC", none, none, none⟩).1 = [] ∧
    (assign_team_role
      ⟨"exists", none, "Organization Inventory Admin", some "APAC", none, none, none⟩).2 =
      some ("Team role assignment does not exist: " ++ "Organization Inventory Admin" ++
        ", team: " ++ pyOrStr (some "APAC") none ++ ", object: " ++ pyOrIntStr none none) :=
  exists_state_claim
    ⟨"exists", none, "Organization Inventory Admin", some "APAC", none, none, none⟩ rfl rfl

end AAPPlatform
